import Mathlib

/-!
Shallow embedding of the retrieval / ingestion core of the RAG repository
(`src/app/retrieval.py`, `src/app/ingestion.py`, `src/worker/tasks.py`,
`api/main.py`), together with theorems settling the specification claims.

External collaborators (S3, Redis, Qdrant, Cohere, the LLM rewriter, Celery)
are modelled as oracles: pure functions or boolean flags describing the
outcome of each external call, threaded through the embedded control flow
exactly as the Python code reacts to those outcomes (which calls are wrapped
in `try/except`, what each handler does, what propagates).
-/

/-! ## Two-tier store: `S3Store` (src/app/retrieval.py, class S3Store) -/

/-- Outcome of one S3 `get_object` call for a full key: the object's bytes,
or an exception (boto3 raises both for a missing key and for an
infrastructure failure; `S3Resp.err` covers both, carrying the message). -/
inductive S3Resp where
  | ok (v : String)
  | err (e : String)
deriving DecidableEq, Repr

/-- State of an `S3Store` instance plus oracles for its two backends.
`use_redis` is the constructor flag (Redis ping succeeded);
`cacheReadFails` models `redis.mget` raising, `cacheWriteFails` models
`redis.setex` raising, `storeWriteFails` models `put_object` raising.
`cache` is the Redis contents as (key, value, ttl) entries, most recent
first; `store` is the S3 `get_object` behaviour; `pfx` is `self.prefix`. -/
structure S3Store where
  use_redis : Bool
  cacheReadFails : Bool
  cacheWriteFails : Bool
  storeWriteFails : Bool
  pfx : String
  cache : List (String × String × Nat)
  store : String → S3Resp

/-- Redis key for a parent-doc key: `f"parent_doc:{key}"` in `mget`/`mset`. -/
def cacheKey (k : String) : String := "parent_doc:" ++ k

/-- Redis lookup: first entry whose key matches (later `setex` writes are
consed in front, so the first match is the current value). -/
def cacheLookup (cache : List (String × String × Nat)) (k : String) : Option String :=
  match cache.find? (fun e => e.1 == cacheKey k) with
  | some e => some e.2.1
  | none => none

/-- The cache tier answers iff Redis is enabled and `redis.mget` does not
raise (`mget` step 1; on a raise every key is treated as a miss). -/
def cacheOk (st : S3Store) : Bool := st.use_redis && !st.cacheReadFails

/-- Cached value seen by `mget` for one key (none on miss or cache failure). -/
def hitValue (st : S3Store) (k : String) : Option String :=
  if cacheOk st then cacheLookup st.cache k else none

/-- One worker's S3 fetch in `fetch_s3_and_cache_redis`: `get_object` on the
prefixed key; any exception is caught and turned into `none`. -/
def fetchOne (st : S3Store) (k : String) : Option String :=
  match st.store (st.pfx ++ k) with
  | .ok v => some v
  | .err _ => none

/-- `keys_to_fetch_from_s3` paired with `indices_to_fetch`: the positions of
the keys the cache did not answer, in input order. -/
def missList (st : S3Store) (keys : List String) : List (Nat × String) :=
  keys.enum.filter (fun p => (hitValue st p.2).isNone)

/-- The `results` array right before the S3 fetch: cache hits filled in,
misses still `None`. -/
def baseResults (st : S3Store) (keys : List String) : List (Option String) :=
  keys.map (hitValue st)

/-- Step 3 of `mget`: merge the `(idx, data)` pairs returned by the worker
pool into the results array by index. -/
def mergeFetched (base : List (Option String)) (fetched : List (Nat × Option String)) :
    List (Option String) :=
  fetched.foldl (fun acc p => acc.set p.1 p.2) base

/-- Bound of the `ThreadPoolExecutor` used for the miss fetches
(`max_workers=10`, reduced from the historical 50). -/
def mgetMaxWorkers : Nat := 10

/-- TTL (seconds) used by every Redis write in `mget` and `mset`. -/
def parentDocTTL : Nat := 86400

/-- Cache state after the pool's workers ran, given the order in which the
workers completed (each worker does `setex` for its own key after a
successful fetch; `setex` failures are swallowed; no write without
`use_redis`). -/
def cacheAfterMget (st : S3Store) (order : List (Nat × String)) :
    List (String × String × Nat) :=
  order.foldl
    (fun c p =>
      match fetchOne st p.2 with
      | some v => if st.use_redis && !st.cacheWriteFails then (cacheKey p.2, v, parentDocTTL) :: c else c
      | none => c)
    st.cache

/-- Result of `S3Store.mget`: the returned list, the keys that went to S3
(the cache misses), and the cache afterwards. -/
structure MgetResult where
  results : List (Option String)
  fetchedKeys : List String
  cache : List (String × String × Nat)

/-- `S3Store.mget` (src/app/retrieval.py lines 67-127). `order` is the
completion order of the concurrent workers (intended: a permutation of
`missList`); the returned list itself is assembled by `executor.map`, which
is deterministic in input order, so only the cache depends on `order`. -/
def mget (st : S3Store) (keys : List String) (order : List (Nat × String)) : MgetResult :=
  let fetched := (missList st keys).map (fun p => (p.1, fetchOne st p.2))
  { results := mergeFetched (baseResults st keys) fetched
    fetchedKeys := (missList st keys).map (fun p => p.2)
    cache := cacheAfterMget st order }

/-- `S3Store.mset` (src/app/retrieval.py lines 129-140): for each pair,
`put_object` (unguarded — an exception propagates), then `setex` wrapped in
`try/except` (a cache failure is logged and swallowed). -/
def mset (st : S3Store) (pairs : List (String × String)) : Except String S3Store :=
  match pairs with
  | [] => .ok st
  | (k, v) :: rest =>
    if st.storeWriteFails then
      .error ("put_object failed for " ++ st.pfx ++ k)
    else
      let st1 : S3Store :=
        { st with
          store := fun x => if x = st.pfx ++ k then .ok v else st.store x
          cache :=
            if st.use_redis && !st.cacheWriteFails then (cacheKey k, v, parentDocTTL) :: st.cache
            else st.cache }
      mset st1 rest

/-! ## Vector index and ingestion-side operations
(src/app/retrieval.py: `delete_documents_by_source`, `add_documents`;
the Qdrant collection is modelled as the list of indexed child chunks). -/

/-- One indexed child chunk: its payload carries `metadata.source` (the
source filename), the `doc_id` back-reference to its parent, and the text. -/
structure ChildChunk where
  source : String
  parentId : String
  content : String
deriving DecidableEq, Repr

/-- The Qdrant collection contents (child chunks only). -/
abbrev VectorIndex := List ChildChunk

/-- `RetrievalService.delete_documents_by_source` (retrieval.py lines
334-364): delete every point whose `metadata.source` matches the filename
(the Qdrant `MatchText` filter is modelled as equality on the stored
filename). The surrounding `try/except` swallows any error, so the call
never raises. -/
def delete_documents_by_source (idx : VectorIndex) (source_filename : String) : VectorIndex :=
  idx.filter (fun c => c.source != source_filename)

/-- `RetrievalService.add_documents` (retrieval.py lines 366-385): calls
`retriever.add_documents(documents)` — which splits the parents into
children and upserts them — inside a `try/except Exception` that only logs
and returns, so no exception ever escapes. `addRaises` is the oracle for
the underlying retriever call raising; the returned Bool is whether an
exception propagated out of this method (always `false` by the code).
On a raise the upsert is modelled as not having happened. -/
def add_documents (addRaises : Bool) (idx : VectorIndex) (children : List ChildChunk) :
    VectorIndex × Bool :=
  if addRaises then (idx, false) else (idx ++ children, false)

/-- One full ingestion run for a file on the vector index, in the order of
`process_document_task` (tasks.py lines 232-237): delete the old vectors
for the filename, then index the children of the fresh parse. -/
def ingestRun (idx : VectorIndex) (filename : String) (children : List ChildChunk) :
    VectorIndex :=
  (add_documents false (delete_documents_by_source idx filename) children).1

/-! ## Status tracking (src/core/models.py `FileTracking`) and the
ingestion task state machine (src/worker/tasks.py). -/

/-- The status strings written to `FileTracking.status`:
`PENDING`, `PROCESSING`, `RETRY_n`, `COMPLETED`, `FAILED`. -/
inductive Status where
  | pending
  | processing
  | retry (n : Nat)
  | completed
  | failed
deriving DecidableEq, Repr

/-- One `file_tracking` row: filename (primary key), status, nullable
error message (modelled as a char list so truncation is by `List.take`). -/
structure TrackingRecord where
  filename : String
  status : Status
  errorMsg : Option (List Char)
deriving DecidableEq, Repr

/-- `RetryableIngestionTask.retry_kwargs['max_retries']` (tasks.py line 165). -/
def celeryMaxRetries : Nat := 3

/-- Error-message truncation bound (`str(exc)[:500]`, tasks.py line 279). -/
def errMsgCap : Nat := 500

/-- Oracles describing one document's fate inside `process_document_task`:
whether `ingestor.process_file` raises, whether it yields zero chunks,
the children the parse's chunks split into, whether the retriever's
vector upsert raises, and `str(exc)` for the raised exception. -/
structure AttemptEnv where
  parseRaises : Bool
  chunksEmpty : Bool
  children : List ChildChunk
  addRaises : Bool
  errText : List Char

/-- Status written at the top of an attempt (tasks.py lines 196-210):
`PROCESSING` on the first attempt, `RETRY_{retries}` on a retried one;
`error_msg` is cleared. -/
def startStatus (retries : Nat) : Status :=
  if retries = 0 then .processing else .retry retries

/-- The outer `except` handler (tasks.py lines 267-294): on the last
allowed attempt (`retries >= 3`) set `FAILED` with the truncated error,
otherwise set `RETRY_{retries+1}` (leaving `error_msg` as it was). -/
def failHandler (env : AttemptEnv) (retries : Nat) (rec : TrackingRecord) : TrackingRecord :=
  if celeryMaxRetries ≤ retries then
    { rec with status := .failed, errorMsg := some (env.errText.take errMsgCap) }
  else
    { rec with status := .retry (retries + 1) }

/-- Whether the task body re-raised (propagating to Celery) or returned. -/
inductive TaskResult where
  | success
  | raised
deriving DecidableEq, Repr

/-- One attempt of `process_document_task` (tasks.py lines 173-297), given
the attempt number `retries` (`self.request.retries`): set the start
status; parse (a raise goes to the outer handler); on zero chunks raise
`ValueError` (outer handler); otherwise delete stale vectors and call
`add_documents` — whose internal `try/except` means a vector failure does
not escape — and mark the record `COMPLETED`, returning success. -/
def process_document_task (env : AttemptEnv) (retries : Nat)
    (rec : TrackingRecord) (idx : VectorIndex) :
    TrackingRecord × VectorIndex × TaskResult :=
  let rec1 : TrackingRecord := { rec with status := startStatus retries, errorMsg := none }
  if env.parseRaises then
    (failHandler env retries rec1, idx, .raised)
  else if env.chunksEmpty then
    (failHandler env retries rec1, idx, .raised)
  else
    let idx1 := delete_documents_by_source idx rec.filename
    let r := add_documents env.addRaises idx1 env.children
    if r.2 then
      -- `except Exception as e_vector` branch (tasks.py lines 249-260);
      -- unreachable because `add_documents` never lets an exception escape.
      (failHandler env retries rec1, r.1, .raised)
    else
      ({ rec1 with status := .completed }, r.1, .success)

/-- Celery's driver for `RetryableIngestionTask` (`autoretry_for` every
exception, `max_retries = 3`): run an attempt; on success stop; on a raise
re-dispatch with `retries + 1` while `retries < max_retries`, else stop.
`fuel` bounds the recursion (`celeryMaxRetries + 1` attempts at most).
Returns the list of statuses written, the final record and index, and the
number of attempts executed. -/
def celeryRun (env : AttemptEnv) (fuel retries : Nat)
    (rec : TrackingRecord) (idx : VectorIndex) :
    List Status × TrackingRecord × VectorIndex × Nat :=
  match fuel with
  | 0 => ([], rec, idx, 0)
  | Nat.succ f =>
    let r := process_document_task env retries rec idx
    let tr := [startStatus retries, r.1.status]
    match r.2.2 with
    | .success => (tr, r.1, r.2.1, 1)
    | .raised =>
      if retries < celeryMaxRetries then
        let rest := celeryRun env f (retries + 1) r.1 r.2.1
        (tr ++ rest.1, rest.2.1, rest.2.2.1, rest.2.2.2 + 1)
      else
        (tr, r.1, r.2.1, 1)

/-! ## Ingestion scanner (src/app/ingestion.py `ingest_documents`,
lines 345-380) and upload endpoint (src/api/main.py `upload_document`,
lines 200-223): the per-file decision on the tracking record and on
enqueueing a task. -/

/-- Per-file step of the scanner: no record → create `PENDING` and queue;
`FAILED` → reset to `PENDING`, clear the error, queue; any other status →
leave the record untouched and skip. Returns (record after, queued?). -/
def ingest_documents_step (rec : Option TrackingRecord) (filename : String) :
    TrackingRecord × Bool :=
  match rec with
  | none => (⟨filename, .pending, none⟩, true)
  | some r =>
    if r.status = .failed then
      ({ r with status := .pending, errorMsg := none }, true)
    else
      (r, false)

/-- Tracking-record step of the `/upload` endpoint: if a record exists it
is set to `PENDING` with the error cleared regardless of its status,
otherwise a fresh `PENDING` record is created; in both cases
`process_document_task.delay` is called. Returns (record after, queued?). -/
def upload_document (rec : Option TrackingRecord) (filename : String) :
    TrackingRecord × Bool :=
  match rec with
  | none => (⟨filename, .pending, none⟩, true)
  | some r => ({ r with status := .pending, errorMsg := none }, true)

/-! ## Retrieval orchestrator (src/app/retrieval.py `get_relevant_docs`,
lines 443-597). Timings are opaque nonnegative quantities (ℕ); the
returned metrics dict is an association list field-name → value. -/

/-- A parent document as returned to the caller. -/
structure Doc where
  content : String
  source : String
deriving DecidableEq, Repr

/-- Oracles for one `get_relevant_docs` call: whether `self.retriever` is
initialized; the rewriter's output query (`rewrite_query` never raises —
it falls back to the original query internally); the retriever's parents
for a query string; whether `self.cohere_client` is set; the Cohere rerank
call as a function of (query, document texts, top_n) returning the result
index order, `none` modelling a raise; and the measured durations. -/
structure OrchestratorEnv where
  retrieverInit : Bool
  rewrittenQuery : String
  retrieve : String → List Doc
  cohereAvailable : Bool
  rerank : String → List String → Nat → Option (List Nat)
  retrievalTime : Nat
  rerankTime : Nat
  totalTime : Nat

/-- The metrics dict initialized at the top of `get_relevant_docs`
(lines 447-452): every field present with value zero. -/
def zeroMetrics : List (String × Nat) :=
  [("rewrite_seconds", 0), ("retrieval_seconds", 0), ("rerank_seconds", 0), ("total_seconds", 0)]

/-- `RetrievalService.get_relevant_docs`: returns (documents, metrics).
No retriever → `([], zeroMetrics)` (line 456). Zero candidate parents →
`return [], {}` (line 545): the empty dict. Otherwise rerank with Cohere
against the ORIGINAL query with `top_n = top_k` (lines 561-576), mapping
`result.index` back into `initial_parents`; if the client is missing, the
API raises, or an index is out of range (an `IndexError` inside the same
`try`), fall back to `initial_parents[:top_k]`. -/
def get_relevant_docs (env : OrchestratorEnv) (query : String) (top_k : Nat) :
    List Doc × List (String × Nat) :=
  if !env.retrieverInit then ([], zeroMetrics)
  else
    let parents := env.retrieve env.rewrittenQuery
    if parents.isEmpty then ([], [])
    else
      let r : List Doc × Nat :=
        if !env.cohereAvailable then (parents.take top_k, 0)
        else
          match env.rerank query (parents.map (fun d => d.content)) top_k with
          | some order =>
            if order.all (fun i => i < parents.length) then
              (order.filterMap (fun i => parents[i]?), env.rerankTime)
            else
              (parents.take top_k, env.rerankTime)
          | none => (parents.take top_k, env.rerankTime)
      (r.1,
        [("rewrite_seconds", 0), ("retrieval_seconds", env.retrievalTime),
         ("rerank_seconds", r.2), ("total_seconds", env.totalTime)])

/-! ## Helper lemmas about `mget` -/

/-- What one `batchGet` entry must be: the cached value on a hit,
otherwise the S3 fetch's outcome for that key. -/
def twoTierLookup (st : S3Store) (k : String) : Option String :=
  match hitValue st k with
  | some v => some v
  | none => fetchOne st k

theorem mergeFetched_length (base : List (Option String))
    (fetched : List (Nat × Option String)) :
    (mergeFetched base fetched).length = base.length := by
  induction fetched generalizing base with
  | nil => rfl
  | cons p rest ih =>
    simp only [mergeFetched, List.foldl_cons] at *
    rw [ih (base.set p.1 p.2), List.length_set]

theorem mergeFetched_getElem_of_not_mem (base : List (Option String))
    (fetched : List (Nat × Option String)) (i : Nat)
    (h : ∀ p ∈ fetched, p.1 ≠ i) :
    (mergeFetched base fetched)[i]? = base[i]? := by
  induction fetched generalizing base with
  | nil => rfl
  | cons p rest ih =>
    simp only [mergeFetched, List.foldl_cons] at *
    rw [ih (base.set p.1 p.2) (fun q hq => h q (List.mem_cons_of_mem _ hq))]
    exact List.getElem?_set_ne (h p (List.mem_cons_self _ _))

theorem mergeFetched_getElem_of_mem (base : List (Option String))
    (fetched : List (Nat × Option String)) (i : Nat) (d : Option String)
    (hlen : i < base.length)
    (hnd : (fetched.map Prod.fst).Nodup)
    (hmem : (i, d) ∈ fetched) :
    (mergeFetched base fetched)[i]? = some d := by
  induction fetched generalizing base with
  | nil => cases hmem
  | cons p rest ih =>
    simp only [List.map_cons, List.nodup_cons] at hnd
    rcases List.mem_cons.mp hmem with h1 | h1
    · subst h1
      simp only [mergeFetched, List.foldl_cons]
      have hnotmem : ∀ q ∈ rest, q.1 ≠ i := by
        intro q hq hqi
        have hq1 : q.1 ∈ rest.map Prod.fst := List.mem_map.mpr ⟨q, hq, rfl⟩
        exact hnd.1 (hqi ▸ hq1)
      rw [show List.foldl (fun acc p => acc.set p.1 p.2) (base.set i d) rest =
            mergeFetched (base.set i d) rest from rfl,
        mergeFetched_getElem_of_not_mem _ _ _ hnotmem]
      exact List.getElem?_set_self (by simpa using hlen)
    · simp only [mergeFetched, List.foldl_cons]
      exact ih (base.set p.1 p.2) (by simpa using hlen) hnd.2 h1

theorem missList_map_fst_nodup (st : S3Store) (keys : List String) :
    ((missList st keys).map Prod.fst).Nodup := by
  have hsub : List.Sublist ((missList st keys).map Prod.fst) (keys.enum.map Prod.fst) :=
    (List.filter_sublist keys.enum).map Prod.fst
  have : (keys.enum.map Prod.fst).Nodup := by
    rw [List.enum_map_fst]; exact List.nodup_range keys.length
  exact this.sublist hsub

theorem mget_results_length (st : S3Store) (keys : List String)
    (order : List (Nat × String)) :
    (mget st keys order).results.length = keys.length := by
  simp [mget, mergeFetched_length, baseResults]

/-- Positional characterization of the `mget` result list: entry `i` is
the cache hit for key `i` if any, else the S3 fetch for key `i`. -/
theorem mget_results_getElem (st : S3Store) (keys : List String)
    (order : List (Nat × String)) (i : Nat) (h : i < keys.length) :
    (mget st keys order).results[i]? = some (twoTierLookup st keys[i]) := by
  have hbaselen : (baseResults st keys).length = keys.length := by
    simp [baseResults]
  have hbase : (baseResults st keys)[i]? = some (hitValue st keys[i]) := by
    simp [baseResults, List.getElem?_map, List.getElem?_eq_getElem h]
  have hmapfst : ((missList st keys).map (fun p => (p.1, fetchOne st p.2))).map Prod.fst =
      (missList st keys).map Prod.fst := by
    simp [List.map_map, Function.comp]
  cases hhit : hitValue st keys[i] with
  | some v =>
    have hnot : ∀ p ∈ (missList st keys).map (fun p => (p.1, fetchOne st p.2)), p.1 ≠ i := by
      intro p hp hpi
      rcases List.mem_map.mp hp with ⟨q, hq, rfl⟩
      simp only at hpi
      subst hpi
      have hqmem := List.mem_of_mem_filter hq
      have hqsnd : keys[q.1]? = some q.2 := List.mem_enum_iff_getElem?.mp hqmem
      have : q.2 = keys[q.1] := by
        have := List.getElem?_eq_getElem (l := keys) (by
          have := List.getElem?_eq_some.mp hqsnd
          exact this.1)
        rw [List.getElem?_eq_getElem (List.getElem?_eq_some.mp hqsnd).1] at hqsnd
        exact (Option.some.inj hqsnd).symm
      have hpred := List.of_mem_filter hq
      rw [this] at hpred
      simp [hhit] at hpred
    rw [mget, mergeFetched_getElem_of_not_mem _ _ _ hnot, hbase, twoTierLookup, hhit]
  | none =>
    have hmem : (i, keys[i]) ∈ keys.enum := by
      rw [List.mem_enum_iff_getElem?]
      exact List.getElem?_eq_getElem h
    have hmiss : (i, keys[i]) ∈ missList st keys := by
      rw [missList, List.mem_filter]
      exact ⟨hmem, by simp [hhit]⟩
    have hfmem : (i, fetchOne st keys[i]) ∈
        (missList st keys).map (fun p => (p.1, fetchOne st p.2)) :=
      List.mem_map.mpr ⟨(i, keys[i]), hmiss, rfl⟩
    rw [mget]
    rw [mergeFetched_getElem_of_mem _ _ i (fetchOne st keys[i]) (hbaselen ▸ h)
      (hmapfst ▸ missList_map_fst_nodup st keys) hfmem]
    rw [twoTierLookup, hhit]

/-- The `setex` step of one worker in `cacheAfterMget`, named so the fold
can be reasoned about. -/
def cacheWriteStep (st : S3Store) (c : List (String × String × Nat)) (q : Nat × String) :
    List (String × String × Nat) :=
  match fetchOne st q.2 with
  | some w => if st.use_redis && !st.cacheWriteFails then (cacheKey q.2, w, parentDocTTL) :: c else c
  | none => c

theorem cacheAfterMget_eq_foldl (st : S3Store) (order : List (Nat × String)) :
    cacheAfterMget st order = order.foldl (cacheWriteStep st) st.cache := rfl

theorem cacheWriteStep_foldl_mono (st : S3Store) (e : String × String × Nat) :
    ∀ (l : List (Nat × String)) (c : List (String × String × Nat)),
      e ∈ c → e ∈ l.foldl (cacheWriteStep st) c := by
  intro l
  induction l with
  | nil => intro c hc; exact hc
  | cons q rest ih =>
    intro c hc
    simp only [List.foldl_cons]
    apply ih
    rw [cacheWriteStep]
    cases hfq : fetchOne st q.2 with
    | some w =>
      by_cases hb : (st.use_redis && !st.cacheWriteFails) = true
      · simp only [if_pos hb]
        exact List.mem_cons_of_mem _ hc
      · simp only [if_neg hb]
        exact hc
    | none => exact hc

theorem cacheAfterMget_mem_of_mem (st : S3Store) (p : Nat × String) (v : String)
    (order : List (Nat × String))
    (hmem : p ∈ order) (hv : fetchOne st p.2 = some v)
    (hw : st.use_redis = true) (hcw : st.cacheWriteFails = false) :
    (cacheKey p.2, v, parentDocTTL) ∈ cacheAfterMget st order := by
  rw [cacheAfterMget_eq_foldl]
  have main : ∀ (l : List (Nat × String)) (c : List (String × String × Nat)),
      p ∈ l → (cacheKey p.2, v, parentDocTTL) ∈ l.foldl (cacheWriteStep st) c := by
    intro l
    induction l with
    | nil => intro c hc; cases hc
    | cons q rest ih =>
      intro c hq
      simp only [List.foldl_cons]
      rcases List.mem_cons.mp hq with h1 | h1
      · subst h1
        apply cacheWriteStep_foldl_mono
        simp [cacheWriteStep, hv, hw, hcw]
      · exact ih _ h1
  exact main order st.cache hmem

/-! ## Claim C3: batchGet semantics -/

/-- C3: For every batchGet (mget) over a list of keys, the result has one
entry per input key in the caller's input key order; each entry is the
cached bytes when the cache holds the key, otherwise the value fetched from
the Object Store (misses fetched via a worker pool bounded at 10, each
successful fetch written into the cache with the TTL before returning);
a key absent in both tiers yields `none`, never an error (`mget` is a total
function into option values). `order` is the arbitrary completion order of
the concurrent miss fetches. -/
theorem mget_batch_semantics (st : S3Store) (keys : List String)
    (order : List (Nat × String))
    (hredis : st.use_redis = true) (hread : st.cacheReadFails = false)
    (hwrite : st.cacheWriteFails = false)
    (horder : order.Perm (missList st keys)) :
    (mget st keys order).results.length = keys.length ∧
    (∀ i, (h : i < keys.length) →
      (mget st keys order).results[i]? =
        some (match cacheLookup st.cache keys[i] with
              | some v => some v
              | none => fetchOne st keys[i])) ∧
    mgetMaxWorkers = 10 ∧
    (∀ p ∈ missList st keys, ∀ v, fetchOne st p.2 = some v →
      (cacheKey p.2, v, parentDocTTL) ∈ (mget st keys order).cache) := by
  have hhv : ∀ k, hitValue st k = cacheLookup st.cache k := by
    intro k
    simp [hitValue, cacheOk, hredis, hread]
  refine ⟨mget_results_length st keys order, ?_, rfl, ?_⟩
  · intro i h
    rw [mget_results_getElem st keys order i h, twoTierLookup, hhv]
  · intro p hp v hv
    have hpo : p ∈ order := (horder.mem_iff).mpr hp
    exact cacheAfterMget_mem_of_mem st p v order hpo hv hredis hwrite

/-- Concrete two-tier state for the C3 witness: key `a` is cached, key `b`
is only in the object store, key `c` is in neither tier. -/
def stC3 : S3Store :=
  { use_redis := true
    cacheReadFails := false
    cacheWriteFails := false
    storeWriteFails := false
    pfx := "parent_store/"
    cache := [(cacheKey "a", "va", parentDocTTL)]
    store := fun k => if k = "parent_store/b" then .ok "vb" else .err "NoSuchKey" }

theorem mget_batch_semantics_witness :
    stC3.use_redis = true ∧ stC3.cacheReadFails = false ∧
    stC3.cacheWriteFails = false ∧
    (missList stC3 ["a", "b", "c"]).Perm (missList stC3 ["a", "b", "c"]) ∧
    ((mget stC3 ["a", "b", "c"] (missList stC3 ["a", "b", "c"])).results.length =
        (["a", "b", "c"] : List String).length ∧
      (∀ i, (h : i < (["a", "b", "c"] : List String).length) →
        (mget stC3 ["a", "b", "c"] (missList stC3 ["a", "b", "c"])).results[i]? =
          some (match cacheLookup stC3.cache (["a", "b", "c"] : List String)[i] with
                | some v => some v
                | none => fetchOne stC3 (["a", "b", "c"] : List String)[i])) ∧
      mgetMaxWorkers = 10 ∧
      (∀ p ∈ missList stC3 ["a", "b", "c"], ∀ v, fetchOne stC3 p.2 = some v →
        (cacheKey p.2, v, parentDocTTL) ∈
          (mget stC3 ["a", "b", "c"] (missList stC3 ["a", "b", "c"])).cache)) :=
  ⟨rfl, rfl, rfl, List.Perm.refl _,
    mget_batch_semantics stC3 ["a", "b", "c"] (missList stC3 ["a", "b", "c"])
      rfl rfl rfl (List.Perm.refl _)⟩

/-! ## Claim C4: failure semantics of the two-tier store (corrected) -/

/-- Two-tier state whose object store always fails. -/
def stC4 : S3Store :=
  { use_redis := false
    cacheReadFails := false
    cacheWriteFails := false
    storeWriteFails := true
    pfx := "parent_store/"
    cache := []
    store := fun _ => .err "connection refused" }

/-- C4 counterexample: the claim says a total Object Store failure is
surfaced for the specific key's READ, but `mget`'s worker catches every
exception and returns `None` for the key: with a store whose every
`get_object` raises, `mget ["k1"]` returns `[none]` — the key is silently
reported absent, no failure surfaces. -/
theorem mget_store_failure_silently_absent :
    stC4.store (stC4.pfx ++ "k1") = S3Resp.err "connection refused" ∧
    (mget stC4 ["k1"] [(0, "k1")]).results = [none] := by
  exact ⟨rfl, rfl⟩

/-- C4 amended: a total Cache failure degrades silently to always-miss
(every read falls through to the Object Store, and every key is fetched);
a total Object Store failure is fatal for the specific key's WRITE (`mset`
propagates the `put_object` exception), but a failed Object Store READ is
swallowed: the key is reported absent (`none`) rather than surfacing the
failure. -/
theorem two_tier_failure_semantics (st : S3Store) (keys : List String)
    (order : List (Nat × String)) (pairs : List (String × String))
    (hread : st.cacheReadFails = true)
    (hw : st.storeWriteFails = true) (hp : pairs ≠ []) :
    ((mget st keys order).results = keys.map (fun k => fetchOne st k)) ∧
    ((mget st keys order).fetchedKeys = keys) ∧
    (∃ e, mset st pairs = .error e) ∧
    (∀ k msg, st.store (st.pfx ++ k) = .err msg → fetchOne st k = none) := by
  have hmiss : ∀ k, hitValue st k = none := by
    intro k
    simp [hitValue, cacheOk, hread]
  refine ⟨?_, ?_, ?_, ?_⟩
  · apply List.ext_getElem?
    intro n
    by_cases hlt : n < keys.length
    · rw [mget_results_getElem st keys order n hlt, twoTierLookup, hmiss]
      rw [List.getElem?_map, List.getElem?_eq_getElem hlt]
      rfl
    · have h1 : (mget st keys order).results[n]? = none := by
        apply List.getElem?_eq_none
        rw [mget_results_length]
        omega
      have h2 : (keys.map (fun k => fetchOne st k))[n]? = none := by
        apply List.getElem?_eq_none
        rw [List.length_map]
        omega
      rw [h1, h2]
  · show (missList st keys).map (fun p => p.2) = keys
    have : missList st keys = keys.enum := by
      rw [missList]
      apply List.filter_eq_self.mpr
      intro p _
      simp [hmiss]
    rw [this]
    exact List.enum_map_snd keys
  · cases pairs with
    | nil => exact absurd rfl hp
    | cons q rest =>
      refine ⟨"put_object failed for " ++ st.pfx ++ q.1, ?_⟩
      rw [mset]
      simp [hw]
  · intro k msg h
    simp [fetchOne, h]

/-- Two-tier state for the C4 amended-claim witness: Redis reads raise and
every `put_object` raises. -/
def stC4w : S3Store :=
  { use_redis := true
    cacheReadFails := true
    cacheWriteFails := false
    storeWriteFails := true
    pfx := "parent_store/"
    cache := [(cacheKey "x", "stale", parentDocTTL)]
    store := fun _ => .err "connection refused" }

theorem two_tier_failure_semantics_witness :
    stC4w.cacheReadFails = true ∧ stC4w.storeWriteFails = true ∧
    ([("k", "v")] : List (String × String)) ≠ [] ∧
    ((mget stC4w ["x"] [(0, "x")]).results =
        (["x"] : List String).map (fun k => fetchOne stC4w k) ∧
      ((mget stC4w ["x"] [(0, "x")]).fetchedKeys = ["x"]) ∧
      (∃ e, mset stC4w [("k", "v")] = .error e) ∧
      (∀ k msg, stC4w.store (stC4w.pfx ++ k) = .err msg → fetchOne stC4w k = none)) :=
  ⟨rfl, rfl, by decide,
    two_tier_failure_semantics stC4w ["x"] [(0, "x")] [("k", "v")] rfl rfl (by decide)⟩

/-! ## Claim C7: cache coherence after batchSet -/

/-- C7: for every key `k` and value `v`, `mset [(k, v)]` writes `k` to the
Object Store before updating the Cache (the resulting store holds `v`
regardless of the cache outcome) and still succeeds when the cache write
fails (with the cache left untouched); after a normal `mset`, an immediate
`mget [k]` returns `v` served from the Cache with no fallthrough to the
Object Store (`fetchedKeys = []`). -/
theorem cache_coherence_after_mset (st : S3Store) (k v : String)
    (order : List (Nat × String))
    (h1 : st.use_redis = true) (h2 : st.cacheReadFails = false)
    (h3 : st.cacheWriteFails = false) (h4 : st.storeWriteFails = false) :
    ∃ st1, mset st [(k, v)] = .ok st1 ∧
      fetchOne st1 k = some v ∧
      (mget st1 [k] order).results = [some v] ∧
      (mget st1 [k] order).fetchedKeys = [] ∧
      ∃ st2, mset { st with cacheWriteFails := true } [(k, v)] = .ok st2 ∧
        fetchOne st2 k = some v ∧ st2.cache = st.cache := by
  refine ⟨{ st with
      store := fun x => if x = st.pfx ++ k then .ok v else st.store x
      cache := (cacheKey k, v, parentDocTTL) :: st.cache }, ?_, ?_, ?_, ?_, ?_⟩
  · rw [mset]
    simp [h1, h3, h4, mset]
  · simp [fetchOne]
  · have hhit : hitValue
        { st with
          store := fun x => if x = st.pfx ++ k then .ok v else st.store x
          cache := (cacheKey k, v, parentDocTTL) :: st.cache } k = some v := by
      simp [hitValue, cacheOk, h1, h2, cacheLookup]
    simp [mget, missList, baseResults, mergeFetched, hhit]
  · have hhit : hitValue
        { st with
          store := fun x => if x = st.pfx ++ k then .ok v else st.store x
          cache := (cacheKey k, v, parentDocTTL) :: st.cache } k = some v := by
      simp [hitValue, cacheOk, h1, h2, cacheLookup]
    simp [mget, missList, hhit]
  · refine ⟨{ st with
      cacheWriteFails := true
      store := fun x => if x = st.pfx ++ k then .ok v else st.store x }, ?_, ?_, rfl⟩
    · rw [mset]
      simp [h4, mset]
    · simp [fetchOne]

/-- Concrete state for the C7 witness: healthy cache and store, one
pre-existing cache entry for an unrelated key. -/
def stC7 : S3Store :=
  { use_redis := true
    cacheReadFails := false
    cacheWriteFails := false
    storeWriteFails := false
    pfx := "parent_store/"
    cache := []
    store := fun _ => .err "NoSuchKey" }

theorem cache_coherence_after_mset_witness :
    stC7.use_redis = true ∧ stC7.cacheReadFails = false ∧
    stC7.cacheWriteFails = false ∧ stC7.storeWriteFails = false ∧
    (∃ st1, mset stC7 [("doc1", "bytes1")] = .ok st1 ∧
      fetchOne st1 "doc1" = some "bytes1" ∧
      (mget st1 ["doc1"] []).results = [some "bytes1"] ∧
      (mget st1 ["doc1"] []).fetchedKeys = [] ∧
      ∃ st2, mset { stC7 with cacheWriteFails := true } [("doc1", "bytes1")] = .ok st2 ∧
        fetchOne st2 "doc1" = some "bytes1" ∧ st2.cache = stC7.cache) :=
  ⟨rfl, rfl, rfl, rfl,
    cache_coherence_after_mset stC7 "doc1" "bytes1" [] rfl rfl rfl rfl⟩

/-! ## Claim C1: idempotent re-ingestion -/

theorem filter_source_self_of_all (cs : List ChildChunk) (F : String)
    (h : ∀ c ∈ cs, c.source = F) :
    cs.filter (fun c => c.source == F) = cs := by
  apply List.filter_eq_self.mpr
  intro c hc
  simp [h c hc]

theorem filter_source_other_of_all (cs : List ChildChunk) (F G : String)
    (h : ∀ c ∈ cs, c.source = F) (hG : G ≠ F) :
    cs.filter (fun c => c.source == G) = [] := by
  apply List.filter_eq_nil_iff.mpr
  intro c hc
  simp [h c hc]
  exact fun he => hG he.symm

theorem ingestRun_filter_self (idx : VectorIndex) (F : String) (cs : List ChildChunk)
    (h : ∀ c ∈ cs, c.source = F) :
    (ingestRun idx F cs).filter (fun c => c.source == F) = cs := by
  rw [ingestRun, add_documents]
  simp only [if_neg (Bool.false_ne_true), List.filter_append]
  rw [delete_documents_by_source, List.filter_filter]
  rw [filter_source_self_of_all cs F h]
  have hnil : (idx.filter fun c => (c.source == F) && (c.source != F)) = [] := by
    apply List.filter_eq_nil_iff.mpr
    intro c _
    by_cases hc : c.source = F <;> simp [hc]
  rw [hnil, List.nil_append]

theorem ingestRun_filter_other (idx : VectorIndex) (F G : String) (cs : List ChildChunk)
    (h : ∀ c ∈ cs, c.source = F) (hG : G ≠ F) :
    (ingestRun idx F cs).filter (fun c => c.source == G) =
      idx.filter (fun c => c.source == G) := by
  rw [ingestRun, add_documents]
  simp only [if_neg (Bool.false_ne_true), List.filter_append]
  rw [delete_documents_by_source, List.filter_filter]
  rw [filter_source_other_of_all cs F G h hG, List.append_nil]
  apply List.filter_congr
  intro c _
  by_cases hc : c.source = G
  · simp [hc, hG]
  · simp [hc]

/-- C1: ingestion is idempotent per source file. Running the ingestion
task's vector phase for filename `F` a second time — delete every indexed
child whose `payload.source` is `F`, then index the second run's children —
leaves the index holding exactly the second run's children for `F` (no
duplicates, no leftovers from the first run), while the chunks of every
other filename are exactly what they were before either run. -/
theorem ingestion_idempotent_per_source (idx : VectorIndex) (F : String)
    (cs1 cs2 : List ChildChunk)
    (h1 : ∀ c ∈ cs1, c.source = F) (h2 : ∀ c ∈ cs2, c.source = F) :
    (ingestRun (ingestRun idx F cs1) F cs2).filter (fun c => c.source == F) = cs2 ∧
    (∀ G, G ≠ F →
      (ingestRun (ingestRun idx F cs1) F cs2).filter (fun c => c.source == G) =
        idx.filter (fun c => c.source == G)) ∧
    (∀ (env : AttemptEnv) (retries : Nat) (rec : TrackingRecord) (i : VectorIndex),
      env.parseRaises = false → env.chunksEmpty = false → env.addRaises = false →
      (process_document_task env retries rec i).2.1 = ingestRun i rec.filename env.children) := by
  refine ⟨?_, ?_, ?_⟩
  · exact ingestRun_filter_self (ingestRun idx F cs1) F cs2 h2
  · intro G hG
    rw [ingestRun_filter_other (ingestRun idx F cs1) F G cs2 h2 hG]
    exact ingestRun_filter_other idx F G cs1 h1 hG
  · intro env retries rec i hp hc ha
    simp [process_document_task, hp, hc, ha, add_documents, ingestRun]

theorem ingestion_idempotent_per_source_witness :
    (∀ c ∈ [ChildChunk.mk "X.pdf" "p1" "t1", ChildChunk.mk "X.pdf" "p1" "t2"],
      c.source = "X.pdf") ∧
    (∀ c ∈ [ChildChunk.mk "X.pdf" "p2" "u1"], c.source = "X.pdf") ∧
    ((ingestRun (ingestRun [ChildChunk.mk "Y.pdf" "q1" "w1"] "X.pdf"
          [ChildChunk.mk "X.pdf" "p1" "t1", ChildChunk.mk "X.pdf" "p1" "t2"]) "X.pdf"
          [ChildChunk.mk "X.pdf" "p2" "u1"]).filter (fun c => c.source == "X.pdf") =
        [ChildChunk.mk "X.pdf" "p2" "u1"] ∧
      (∀ G, G ≠ "X.pdf" →
        (ingestRun (ingestRun [ChildChunk.mk "Y.pdf" "q1" "w1"] "X.pdf"
            [ChildChunk.mk "X.pdf" "p1" "t1", ChildChunk.mk "X.pdf" "p1" "t2"]) "X.pdf"
            [ChildChunk.mk "X.pdf" "p2" "u1"]).filter (fun c => c.source == G) =
          [ChildChunk.mk "Y.pdf" "q1" "w1"].filter (fun c => c.source == G)) ∧
      (∀ (env : AttemptEnv) (retries : Nat) (rec : TrackingRecord) (i : VectorIndex),
        env.parseRaises = false → env.chunksEmpty = false → env.addRaises = false →
        (process_document_task env retries rec i).2.1 = ingestRun i rec.filename env.children)) :=
  ⟨by decide, by decide,
    ingestion_idempotent_per_source [ChildChunk.mk "Y.pdf" "q1" "w1"] "X.pdf"
      [ChildChunk.mk "X.pdf" "p1" "t1", ChildChunk.mk "X.pdf" "p1" "t2"]
      [ChildChunk.mk "X.pdf" "p2" "u1"] (by decide) (by decide)⟩

/-! ## Claim C2: COMPLETED only after a successful vector write (code bug) -/

/-- C2, evaluated at the failing scenario: when the underlying vector
upsert raises (`addRaises = true`) on a parse that produced chunks,
`RetrievalService.add_documents` swallows the exception, so
`process_document_task` marks the record `COMPLETED`, returns success (no
exception reaches Celery's retry mechanism), and the index holds only the
result of the stale-vector deletion — the new chunks were never indexed.
This contradicts the claim (and the code's own comment "Mark COMPLETED
only after successful vector storage"). -/
theorem completed_despite_vector_write_failure (env : AttemptEnv) (retries : Nat)
    (rec : TrackingRecord) (idx : VectorIndex)
    (hp : env.parseRaises = false) (hc : env.chunksEmpty = false)
    (ha : env.addRaises = true) :
    (process_document_task env retries rec idx).1.status = Status.completed ∧
    (process_document_task env retries rec idx).2.2 = TaskResult.success ∧
    (process_document_task env retries rec idx).2.1 =
      delete_documents_by_source idx rec.filename := by
  simp [process_document_task, hp, hc, ha, add_documents]

/-- The C2 failing input: `report.pdf` parses into one chunk but the vector
upsert raises. -/
def envC2 : AttemptEnv :=
  { parseRaises := false
    chunksEmpty := false
    children := [ChildChunk.mk "report.pdf" "p1" "t1"]
    addRaises := true
    errText := [] }

theorem completed_despite_vector_write_failure_witness :
    envC2.parseRaises = false ∧ envC2.chunksEmpty = false ∧ envC2.addRaises = true ∧
    ((process_document_task envC2 0 ⟨"report.pdf", Status.pending, none⟩ []).1.status =
        Status.completed ∧
      (process_document_task envC2 0 ⟨"report.pdf", Status.pending, none⟩ []).2.2 =
        TaskResult.success ∧
      (process_document_task envC2 0 ⟨"report.pdf", Status.pending, none⟩ []).2.1 =
        delete_documents_by_source [] (TrackingRecord.mk "report.pdf" Status.pending none).filename) :=
  ⟨rfl, rfl, rfl,
    completed_despite_vector_write_failure envC2 0 ⟨"report.pdf", Status.pending, none⟩ []
      rfl rfl rfl⟩

/-! ## Claim C9: retry terminal state -/

/-- C9: a document whose ingestion attempt fails every time (parse raises,
or zero chunks are produced) is attempted exactly 4 times (`max_retries =
3`, never a 5th), its record's status trajectory (consecutive duplicates
collapsed) is `PENDING → PROCESSING → RETRY_1 → RETRY_2 → RETRY_3 →
FAILED`, and the final `FAILED` record stores the error message truncated
to at most 500 characters. -/
theorem retry_terminal_state (env : AttemptEnv) (rec : TrackingRecord) (idx : VectorIndex)
    (hfail : env.parseRaises = true ∨ env.chunksEmpty = true)
    (hrec : rec.status = Status.pending) :
    ((rec.status :: (celeryRun env (celeryMaxRetries + 1) 0 rec idx).1).destutter (· ≠ ·) =
      [Status.pending, Status.processing, Status.retry 1, Status.retry 2,
        Status.retry 3, Status.failed]) ∧
    (celeryRun env (celeryMaxRetries + 1) 0 rec idx).2.1.status = Status.failed ∧
    (celeryRun env (celeryMaxRetries + 1) 0 rec idx).2.1.errorMsg =
      some (env.errText.take errMsgCap) ∧
    (∀ e, (celeryRun env (celeryMaxRetries + 1) 0 rec idx).2.1.errorMsg = some e →
      e.length ≤ 500) ∧
    (celeryRun env (celeryMaxRetries + 1) 0 rec idx).2.2.2 = 4 := by
  have hstep : ∀ (r : TrackingRecord) (i : VectorIndex) (n : Nat),
      process_document_task env n r i =
        (failHandler env n { r with status := startStatus n, errorMsg := none }, i, .raised) := by
    intro r i n
    rcases hfail with h | h
    · simp [process_document_task, h]
    · cases hp : env.parseRaises <;> simp [process_document_task, hp, h]
  have hrun : celeryRun env (celeryMaxRetries + 1) 0 rec idx =
      ([Status.processing, Status.retry 1, Status.retry 1, Status.retry 2, Status.retry 2,
        Status.retry 3, Status.retry 3, Status.failed],
       { rec with status := Status.failed, errorMsg := some (env.errText.take errMsgCap) },
       idx, 4) := by
    simp [celeryRun, hstep, failHandler, startStatus, celeryMaxRetries]
  have htr : (celeryRun env (celeryMaxRetries + 1) 0 rec idx).1 =
      [Status.processing, Status.retry 1, Status.retry 1, Status.retry 2, Status.retry 2,
        Status.retry 3, Status.retry 3, Status.failed] := by
    rw [hrun]
  refine ⟨?_, ?_, ?_, ?_, ?_⟩
  · rw [htr, hrec]
    decide
  · rw [hrun]
  · rw [hrun]
  · intro e he
    rw [hrun] at he
    simp only at he
    have : e = env.errText.take errMsgCap := by
      exact (Option.some.inj he).symm
    rw [this, List.length_take, errMsgCap]
    exact Nat.min_le_left 500 env.errText.length
  · rw [hrun]

/-- C9 witness env: the parse of `bad.pdf` always raises with a 600-char
error text. -/
def envC9 : AttemptEnv :=
  { parseRaises := true
    chunksEmpty := false
    children := []
    addRaises := false
    errText := List.replicate 600 'x' }

theorem retry_terminal_state_witness :
    (envC9.parseRaises = true ∨ envC9.chunksEmpty = true) ∧
    (TrackingRecord.mk "bad.pdf" Status.pending none).status = Status.pending ∧
    ((((TrackingRecord.mk "bad.pdf" Status.pending none).status ::
        (celeryRun envC9 (celeryMaxRetries + 1) 0
          ⟨"bad.pdf", Status.pending, none⟩ []).1).destutter (· ≠ ·) =
      [Status.pending, Status.processing, Status.retry 1, Status.retry 2,
        Status.retry 3, Status.failed]) ∧
    (celeryRun envC9 (celeryMaxRetries + 1) 0 ⟨"bad.pdf", Status.pending, none⟩ []).2.1.status =
      Status.failed ∧
    (celeryRun envC9 (celeryMaxRetries + 1) 0 ⟨"bad.pdf", Status.pending, none⟩ []).2.1.errorMsg =
      some (envC9.errText.take errMsgCap) ∧
    (∀ e, (celeryRun envC9 (celeryMaxRetries + 1) 0
        ⟨"bad.pdf", Status.pending, none⟩ []).2.1.errorMsg = some e → e.length ≤ 500) ∧
    (celeryRun envC9 (celeryMaxRetries + 1) 0 ⟨"bad.pdf", Status.pending, none⟩ []).2.2.2 = 4) :=
  ⟨Or.inl rfl, rfl,
    retry_terminal_state envC9 ⟨"bad.pdf", Status.pending, none⟩ [] (Or.inl rfl) rfl⟩

/-! ## Claim C5: zero candidates (corrected) -/

/-- Orchestrator env for the C5 counterexample: the retriever is up but
returns no parents for the (rewritten) query. -/
def envC5 : OrchestratorEnv :=
  { retrieverInit := true
    rewrittenQuery := "q rewritten"
    retrieve := fun _ => []
    cohereAvailable := true
    rerank := fun _ _ _ => none
    retrievalTime := 2
    rerankTime := 1
    totalTime := 3 }

/-- C5 counterexample: with zero candidate parents, `get_relevant_docs`
executes `return [], {}` — the metrics dict it returns is EMPTY, not the
zero-valued dict with all four fields present the claim describes. -/
theorem zero_candidates_returns_empty_dict_not_zero_metrics :
    get_relevant_docs envC5 "q" 10 = ([], []) ∧
    (get_relevant_docs envC5 "q" 10).2 ≠ zeroMetrics := by
  exact ⟨rfl, by decide⟩

/-- C5 amended: when the retrieval step yields zero candidate parents,
`get_relevant_docs` returns an empty document list together with an EMPTY
metrics dict (`{}` — no metric fields at all), rather than raising (the
embedding is a total function). -/
theorem zero_candidates_empty_result (env : OrchestratorEnv) (query : String) (top_k : Nat)
    (h1 : env.retrieverInit = true)
    (h2 : env.retrieve env.rewrittenQuery = []) :
    get_relevant_docs env query top_k = ([], []) := by
  simp [get_relevant_docs, h1, h2]

theorem zero_candidates_empty_result_witness :
    envC5.retrieverInit = true ∧
    envC5.retrieve envC5.rewrittenQuery = [] ∧
    get_relevant_docs envC5 "q" 10 = ([], []) :=
  ⟨rfl, rfl, zero_candidates_empty_result envC5 "q" 10 rfl rfl⟩

/-! ## Claim C6: rerank step semantics -/

/-- C6: with a non-empty candidate set, the rerank step scores the
candidates against the ORIGINAL query (the `query` argument, not
`env.rewrittenQuery` — visible in where `env.rerank` is applied), returns
them exactly in the reranker's returned index order (mapped back into
`initial_parents`, no other mutation; the reranker is called with
`top_n = top_k`, and whenever its answer respects that bound the output has
at most `top_k` documents); if the Cohere client is missing or the call
raises (`none`), the fallback is the first `top_k` candidates in retrieval
order — the call never fails. -/
theorem rerank_against_original_query (env : OrchestratorEnv) (query : String) (top_k : Nat)
    (hInit : env.retrieverInit = true)
    (hCo : env.cohereAvailable = true)
    (hne : env.retrieve env.rewrittenQuery ≠ []) :
    (∀ order,
      env.rerank query ((env.retrieve env.rewrittenQuery).map (fun d => d.content)) top_k =
        some order →
      (∀ i ∈ order, i < (env.retrieve env.rewrittenQuery).length) →
      (get_relevant_docs env query top_k).1 =
        order.filterMap (fun i => (env.retrieve env.rewrittenQuery)[i]?) ∧
      (order.length ≤ top_k → (get_relevant_docs env query top_k).1.length ≤ top_k)) ∧
    (env.rerank query ((env.retrieve env.rewrittenQuery).map (fun d => d.content)) top_k =
        none →
      (get_relevant_docs env query top_k).1 = (env.retrieve env.rewrittenQuery).take top_k) ∧
    ((get_relevant_docs { env with cohereAvailable := false } query top_k).1 =
      (env.retrieve env.rewrittenQuery).take top_k) := by
  have hnemp : (env.retrieve env.rewrittenQuery).isEmpty = false := by
    cases hpp : env.retrieve env.rewrittenQuery with
    | nil => exact absurd hpp hne
    | cons a l => rfl
  refine ⟨?_, ?_, ?_⟩
  · intro order hord hvalid
    have hall : order.all (fun i => i < (env.retrieve env.rewrittenQuery).length) = true := by
      rw [List.all_eq_true]
      intro i hi
      exact decide_eq_true (hvalid i hi)
    constructor
    · simp [get_relevant_docs, hInit, hCo, hnemp, hord, hall]
    · intro hlen
      have hle : (order.filterMap
          (fun i => (env.retrieve env.rewrittenQuery)[i]?)).length ≤ order.length :=
        List.length_filterMap_le _ _
      simp [get_relevant_docs, hInit, hCo, hnemp, hord, hall]
      omega
  · intro hord
    simp [get_relevant_docs, hInit, hCo, hnemp, hord]
  · simp [get_relevant_docs, hInit, hCo, hnemp]

/-- Orchestrator env for the C6 witness: three candidates, reranker
returns index order [2, 0]. -/
def envC6 : OrchestratorEnv :=
  { retrieverInit := true
    rewrittenQuery := "rewritten"
    retrieve := fun _ => [Doc.mk "ta" "a.pdf", Doc.mk "tb" "b.pdf", Doc.mk "tc" "c.pdf"]
    cohereAvailable := true
    rerank := fun _ _ _ => some [2, 0]
    retrievalTime := 2
    rerankTime := 1
    totalTime := 3 }

theorem rerank_against_original_query_witness :
    envC6.retrieverInit = true ∧ envC6.cohereAvailable = true ∧
    envC6.retrieve envC6.rewrittenQuery ≠ [] ∧
    ((∀ order,
      envC6.rerank "original" ((envC6.retrieve envC6.rewrittenQuery).map (fun d => d.content)) 2 =
        some order →
      (∀ i ∈ order, i < (envC6.retrieve envC6.rewrittenQuery).length) →
      (get_relevant_docs envC6 "original" 2).1 =
        order.filterMap (fun i => (envC6.retrieve envC6.rewrittenQuery)[i]?) ∧
      (order.length ≤ 2 → (get_relevant_docs envC6 "original" 2).1.length ≤ 2)) ∧
    (envC6.rerank "original" ((envC6.retrieve envC6.rewrittenQuery).map (fun d => d.content)) 2 =
        none →
      (get_relevant_docs envC6 "original" 2).1 = (envC6.retrieve envC6.rewrittenQuery).take 2) ∧
    ((get_relevant_docs { envC6 with cohereAvailable := false } "original" 2).1 =
      (envC6.retrieve envC6.rewrittenQuery).take 2)) :=
  ⟨rfl, rfl, by decide,
    rerank_against_original_query envC6 "original" 2 rfl rfl (by decide)⟩

/-! ## Claim C8: scanner enqueue rules -/

/-- C8: per enumerated file, the scanner creates a `PENDING` record and
enqueues when no record exists; resets a `FAILED` record to `PENDING` with
the error cleared and re-enqueues; and for every record in any other
status (`PENDING`, `PROCESSING`, `RETRY_n`, `COMPLETED`, ...) leaves the
record untouched and enqueues nothing. -/
theorem scanner_enqueue_rules (fn : String) :
    (ingest_documents_step none fn = (⟨fn, Status.pending, none⟩, true)) ∧
    (∀ r : TrackingRecord, r.status = Status.failed →
      ingest_documents_step (some r) fn =
        ({ r with status := Status.pending, errorMsg := none }, true)) ∧
    (∀ r : TrackingRecord, r.status ≠ Status.failed →
      ingest_documents_step (some r) fn = (r, false)) := by
  refine ⟨rfl, ?_, ?_⟩
  · intro r h
    simp [ingest_documents_step, h]
  · intro r h
    simp [ingest_documents_step, h]

theorem scanner_enqueue_rules_witness :
    (ingest_documents_step none "a.pdf" = (⟨"a.pdf", Status.pending, none⟩, true)) ∧
    (TrackingRecord.mk "f.pdf" Status.failed (some ['e'])).status = Status.failed ∧
    (ingest_documents_step (some ⟨"f.pdf", Status.failed, some ['e']⟩) "f.pdf" =
      (⟨"f.pdf", Status.pending, none⟩, true)) ∧
    (TrackingRecord.mk "c.pdf" Status.completed none).status ≠ Status.failed ∧
    (ingest_documents_step (some ⟨"c.pdf", Status.completed, none⟩) "c.pdf" =
      (⟨"c.pdf", Status.completed, none⟩, false)) :=
  ⟨(scanner_enqueue_rules "a.pdf").1, rfl,
    (scanner_enqueue_rules "f.pdf").2.1 ⟨"f.pdf", Status.failed, some ['e']⟩ rfl,
    by decide,
    (scanner_enqueue_rules "c.pdf").2.2 ⟨"c.pdf", Status.completed, none⟩ (by decide)⟩

/-! ## Claim C10: upload endpoint resets unconditionally -/

/-- C10: for an upload whose filename already has a tracking record, the
record is reset to `PENDING` with `error_msg` cleared and a task is
enqueued regardless of its current status — in particular also for
`PROCESSING`, `RETRY_n` and `COMPLETED`, where the scanner would have
enqueued nothing; so the upload path does not obey the scanner's
no-duplicate-enqueue rule. -/
theorem upload_resets_unconditionally (fn : String) :
    (∀ r : TrackingRecord,
      upload_document (some r) fn = ({ r with status := Status.pending, errorMsg := none }, true)) ∧
    (∀ r : TrackingRecord, r.status ≠ Status.failed →
      (upload_document (some r) fn).2 = true ∧ (ingest_documents_step (some r) fn).2 = false) := by
  refine ⟨fun r => rfl, ?_⟩
  intro r h
  refine ⟨rfl, ?_⟩
  simp [ingest_documents_step, h]

theorem upload_resets_unconditionally_witness :
    (upload_document (some ⟨"d.pdf", Status.processing, some ['e']⟩) "d.pdf" =
      (⟨"d.pdf", Status.pending, none⟩, true)) ∧
    (TrackingRecord.mk "d.pdf" Status.completed none).status ≠ Status.failed ∧
    ((upload_document (some ⟨"d.pdf", Status.completed, none⟩) "d.pdf").2 = true ∧
      (ingest_documents_step (some ⟨"d.pdf", Status.completed, none⟩) "d.pdf").2 = false) :=
  ⟨(upload_resets_unconditionally "d.pdf").1 ⟨"d.pdf", Status.processing, some ['e']⟩,
    by decide,
    (upload_resets_unconditionally "d.pdf").2 ⟨"d.pdf", Status.completed, none⟩ (by decide)⟩
